import Mathlib

/-!
Shallow embedding of `src/update.js` from the dynamodb-graph-model
repository, together with proofs about the Document Update operation.

The JavaScript module exports a single configuration function
`create(options)` that validates `db`, `type`, `key` and `maxGSIK`,
defaults `properties` and `edges` to `[]`, and returns an update
function `doc => Promise`.  The update function reads `doc.id` as the
node, filters the configured property and edge names to those present
in the document, issues one `db.createProperty` / `db.createEdge` call
per match (all issued synchronously, before any is awaited), captures
each edge response's `Item.Data` into the edge record, and resolves to
`Object.assign({id: node}, doc, reduce-of-@Edge-entries)`.

Modelling choices:
* JavaScript objects are association lists `List (Prod String A)` with
  first-match lookup (`dget`); JS object keys are unique, so theorems
  that need that fact take a `Nodup` hypothesis on the keys.
* The store driver `db` is a pair of response functions returning
  `Except E _`; `Except.error` models a rejected promise.
* A run of the update function is recorded as a `Run` value: the list
  of store calls in issuance order, the completed edge records, a trace
  of every JS field-assignment the code performs (with its target
  object, used for the no-mutation claim), and the outcome, where the
  outer `Except` is a synchronous throw and the inner one the promise.
* `Promise.all` is modelled deterministically: the rejection that wins
  is the first rejecting call in issuance order (properties before
  edges), and edge `.then` side effects still run for edges whose own
  call succeeded.
-/

namespace DynamoGraph

/-- A JavaScript object: association list of string keys to values of
type `A`, first binding wins on lookup. -/
abbrev Doc (A : Type) := List (Prod String A)

/-- Property access `obj[k]`: `some v` when the key is bound,
`none` for JavaScript `undefined`. -/
def dget {A : Type} : Doc A -> String -> Option A
  | [], _ => none
  | (k, v) :: rest, k0 => if k = k0 then some v else dget rest k0

/-- Request payload of a `db.createProperty` call, as built at
`src/update.js:101-107`.  `data` holds `doc[property]`, re-read inside
the map, hence an `Option` (the filter guarantees it is `some`). -/
structure PropRequest (A : Type) where
  tenant : Option String
  type : String
  node : A
  data : Option A
  maxGSIK : Nat
deriving DecidableEq

/-- Request payload of a `db.createEdge` call, as built at
`src/update.js:116-122`. -/
structure EdgeRequest (A : Type) where
  tenant : Option String
  type : String
  node : A
  target : Option A
  maxGSIK : Nat
deriving DecidableEq

/-- The `Item` attribute of a `createEdge` response. -/
structure EdgeResponseItem (A : Type) where
  Data : A
deriving DecidableEq

/-- Resolved value of a `db.createEdge` promise; the code reads
`response.Item.Data` at `src/update.js:124`. -/
structure EdgeResponse (A : Type) where
  Item : EdgeResponseItem A
deriving DecidableEq

/-- The writer collaborator (`db` option): response behaviour of its
two operations.  `Except.error` models a rejected promise. -/
structure DB (A E : Type) where
  createProperty : PropRequest A -> Except E Unit
  createEdge : EdgeRequest A -> Except E (EdgeResponse A)

/-- The `options` object destructured at `src/update.js:73`.  A field
holding `none` models a JavaScript `undefined` entry. -/
structure Options (A E : Type) where
  db : Option (DB A E)
  tenant : Option String
  type : Option String
  key : Option String
  maxGSIK : Option Nat
  properties : Option (List String)
  edges : Option (List String)

/-- One store call issued by the update function. -/
inductive Call (A : Type) where
  | createProperty (req : PropRequest A)
  | createEdge (req : EdgeRequest A)
deriving DecidableEq

/-- Identity of a JavaScript object mutated by the update function:
the input document, the i-th edge record of `edgeMap`, the i-th
accumulator object allocated by the result `reduce`, or the fresh
result literal passed to the final `Object.assign`. -/
inductive JsTarget where
  | docObj : JsTarget
  | edgeRec (i : Nat) : JsTarget
  | accObj (i : Nat) : JsTarget
  | resultObj : JsTarget
deriving DecidableEq

/-- A field assignment `target[key] = value` performed by the code. -/
abbrev JsWrite (A : Type) := Prod JsTarget (Prod String A)

/-- An entry of `edgeMap` after its `.then` handler ran:
`edge.data = response.Item.Data` (`src/update.js:124`). -/
structure EdgeDone (A : Type) where
  type : String
  target : Option A
  data : A
deriving DecidableEq

/-- Everything observable about one invocation of the update function:
store calls in issuance order, completed edge records, the trace of JS
field assignments, the object returned on resolution, and the outcome
(outer `Except`: synchronous throw; inner: the promise). -/
structure Run (A E : Type) where
  calls : List (Call A)
  edgesDone : List (EdgeDone A)
  writes : List (JsWrite A)
  resultTarget : JsTarget
  outcome : Except String (Except E (Doc A))

/-- JS assignment `obj[k] = v` on the association-list model: update
in place when the key exists (keeping its position), else append. -/
def objSet {A : Type} (o : Doc A) (k : String) (v : A) : Doc A :=
  if (dget o k).isSome then
    o.map (fun kv => if kv.1 = k then (k, v) else kv)
  else o ++ [(k, v)]

/-- Copy every binding of `src` into `o` in order, as
`Object.assign` does for one source object. -/
def objAssign {A : Type} (o : Doc A) (src : Doc A) : Doc A :=
  src.foldl (fun acc kv => objSet acc kv.1 kv.2) o

/-- The `propMap` of `src/update.js:87-92`: recognized property names
filtered to those present in the document, paired with `doc[property]`. -/
def propMapOf {A : Type} (properties : List String) (doc : Doc A) :
    List (Prod String (Option A)) :=
  (properties.filter fun property => (dget doc property).isSome).map
    fun property => (property, dget doc property)

/-- The `edgeMap` of `src/update.js:94-97`: recognized edge names
filtered to those present, paired with `doc[edge]` as target. -/
def edgeMapOf {A : Type} (edges : List String) (doc : Doc A) :
    List (Prod String (Option A)) :=
  (edges.filter fun edge => (dget doc edge).isSome).map
    fun edge => (edge, dget doc edge)

/-- First rejection among the `createProperty` promises, in issuance
order (the property-call part of the modelled `Promise.all`). -/
def firstPropError {A E : Type} (db : DB A E) :
    List (PropRequest A) -> Option E
  | [] => none
  | req :: rest =>
    match db.createProperty req with
    | Except.error e => some e
    | Except.ok _ => firstPropError db rest

/-- Runs the `createEdge` calls: returns the edge records whose own
call succeeded, with `data := response.Item.Data` as set by the
`.then` handler, and the first rejection if any. -/
def runEdges {A E : Type} (db : DB A E) :
    List (EdgeRequest A) -> Prod (List (EdgeDone A)) (Option E)
  | [] => ([], none)
  | req :: rest =>
    match db.createEdge req with
    | Except.error e => ([], some e)
    | Except.ok response =>
      let done := runEdges db rest
      (EdgeDone.mk req.type req.target response.Item.Data :: done.1, done.2)

/-- The `edge.data = response.Item.Data` assignments, one per edge
whose call resolved, targeting that edge's record object. -/
def edgeDataWrites {A : Type} (ds : List (EdgeDone A)) : List (JsWrite A) :=
  ds.enum.map fun ie => (JsTarget.edgeRec ie.1, "data", ie.2.data)

/-- The result `reduce` of `src/update.js:134-139`: each iteration `j`
allocates a fresh object (`Object.assign({}, acc, one-entry-object)`),
copying the previous accumulator's bindings and then the new `@`-entry
into it.  Returns the assignment trace and the final accumulator. -/
def reduceWrites {A : Type} (acc : Doc A) (j : Nat) :
    List (EdgeDone A) -> Prod (List (JsWrite A)) (Doc A)
  | [] => ([], acc)
  | d :: rest =>
    let k := "@" ++ d.type
    let ws := (acc.map fun kv => (JsTarget.accObj j, kv.1, kv.2))
      ++ [(JsTarget.accObj j, k, d.data)]
    let tail := reduceWrites (objSet acc k d.data) (j + 1) rest
    (ws ++ tail.1, tail.2)

/-- Assignment trace of the final
`Object.assign({id: node}, doc, reduceResult)`: into the fresh result
literal, first `id`, then the document's bindings, then the final
accumulator's bindings. -/
def resultWrites {A : Type} (node : A) (doc : Doc A) (accFinal : Doc A) :
    List (JsWrite A) :=
  (JsTarget.resultObj, "id", node)
    :: (doc.map fun kv => (JsTarget.resultObj, kv.1, kv.2))
    ++ (accFinal.map fun kv => (JsTarget.resultObj, kv.1, kv.2))

/-- Replays onto `o` the writes of a trace that target object `t`. -/
def applyWrites {A : Type} (ws : List (JsWrite A)) (t : JsTarget)
    (o : Doc A) : Doc A :=
  ws.foldl (fun acc w => if w.1 = t then objSet acc w.2.1 w.2.2 else acc) o

/-- The update function returned by `create`, `src/update.js:80-143`:
reads `doc.id` as the node (throwing `Node is undefined` when absent),
builds `propMap` and `edgeMap`, issues every `createProperty` and
`createEdge` call, and on resolution of all of them returns
`Object.assign({id: node}, doc, reduce-of-@Edge-entries)`. -/
def runUpdate {A E : Type} (db : DB A E) (tenant : Option String)
    (maxGSIK : Nat) (properties : List String) (edges : List String)
    (doc : Doc A) : Run A E :=
  match dget doc "id" with
  | none =>
    { calls := [], edgesDone := [], writes := [],
      resultTarget := JsTarget.resultObj,
      outcome := Except.error "Node is undefined" }
  | some node =>
    let propMap := propMapOf properties doc
    let edgeMap := edgeMapOf edges doc
    let propReqs : List (PropRequest A) :=
      propMap.map fun pd => PropRequest.mk tenant pd.1 node pd.2 maxGSIK
    let edgeReqs : List (EdgeRequest A) :=
      edgeMap.map fun et => EdgeRequest.mk tenant et.1 node et.2 maxGSIK
    let calls := propReqs.map Call.createProperty
      ++ edgeReqs.map Call.createEdge
    let propErr := firstPropError db propReqs
    let edgeRun := runEdges db edgeReqs
    let dataWrites := edgeDataWrites edgeRun.1
    match propErr, edgeRun.2 with
    | some e, _ =>
      { calls := calls, edgesDone := edgeRun.1, writes := dataWrites,
        resultTarget := JsTarget.resultObj,
        outcome := Except.ok (Except.error e) }
    | none, some e =>
      { calls := calls, edgesDone := edgeRun.1, writes := dataWrites,
        resultTarget := JsTarget.resultObj,
        outcome := Except.ok (Except.error e) }
    | none, none =>
      let reduced := reduceWrites [] 0 edgeRun.1
      let base : Doc A := objSet [] "id" node
      let result := objAssign (objAssign base doc) reduced.2
      { calls := calls, edgesDone := edgeRun.1,
        writes := dataWrites ++ reduced.1
          ++ resultWrites node doc reduced.2,
        resultTarget := JsTarget.resultObj,
        outcome := Except.ok (Except.ok result) }

/-- The exported configuration function, `src/update.js:72-79`:
validates `db`, `type`, `key`, `maxGSIK` in that order (throwing the
corresponding message for the first `undefined` one) and returns the
update closure, with `properties` and `edges` defaulting to `[]`. -/
def create {A E : Type} (options : Options A E) :
    Except String (Doc A -> Run A E) :=
  match options.db with
  | none => Except.error "DB driver is undefined"
  | some db =>
    match options.type with
    | none => Except.error "Type is undefined"
    | some _ =>
      match options.key with
      | none => Except.error "Key is undefined"
      | some _ =>
        match options.maxGSIK with
        | none => Except.error "Max GSIK is undefined"
        | some maxGSIK =>
          Except.ok (runUpdate db options.tenant maxGSIK
            (options.properties.getD []) (options.edges.getD []))

/-- True when configuration failed (the JS `create` threw). -/
def configThrows {A E : Type} (c : Except String (Doc A -> Run A E)) :
    Bool :=
  match c with
  | Except.error _ => true
  | Except.ok _ => false

/-- True when the update function threw synchronously on the given
document (before returning a promise). -/
def throwsSync {A E : Type} (r : Run A E) : Bool :=
  match r.outcome with
  | Except.error _ => true
  | Except.ok _ => false

/-- Applies the configured update function to a document; `none` when
configuration itself threw. -/
def applyCreate {A E : Type} (options : Options A E) (doc : Doc A) :
    Option (Run A E) :=
  match create options with
  | Except.ok f => some (f doc)
  | Except.error _ => none

/-- The `createProperty` requests the update function builds for a
document bound to `node`. -/
def propReqsOf {A : Type} (tenant : Option String) (maxGSIK : Nat)
    (properties : List String) (doc : Doc A) (node : A) :
    List (PropRequest A) :=
  (propMapOf properties doc).map fun pd =>
    PropRequest.mk tenant pd.1 node pd.2 maxGSIK

/-- The `createEdge` requests the update function builds for a
document bound to `node`. -/
def edgeReqsOf {A : Type} (tenant : Option String) (maxGSIK : Nat)
    (edges : List String) (doc : Doc A) (node : A) :
    List (EdgeRequest A) :=
  (edgeMapOf edges doc).map fun et =>
    EdgeRequest.mk tenant et.1 node et.2 maxGSIK

/-- True on `createProperty` calls whose property name is `p`. -/
def isPropOf {A : Type} (p : String) : Call A -> Bool
  | Call.createProperty req => req.type == p
  | Call.createEdge _ => false

/-- True on `createEdge` calls whose edge name is `e`. -/
def isEdgeOf {A : Type} (e : String) : Call A -> Bool
  | Call.createProperty _ => false
  | Call.createEdge req => req.type == e

/-- The `createProperty` calls of a run for property name `p`. -/
def propCallsFor {A E : Type} (r : Run A E) (p : String) : List (Call A) :=
  r.calls.filter (isPropOf p)

/-- The `createEdge` calls of a run for edge name `e`. -/
def edgeCallsFor {A E : Type} (r : Run A E) (e : String) : List (Call A) :=
  r.calls.filter (isEdgeOf e)

/-- The node a store call is bound to. -/
def callNode {A : Type} : Call A -> A
  | Call.createProperty req => req.node
  | Call.createEdge req => req.node

/-- True when an `Except` is a success. -/
def exceptOk {E B : Type} : Except E B -> Bool
  | Except.ok _ => true
  | Except.error _ => false

/-- The error of an `Except`, if any. -/
def errOf {E B : Type} : Except E B -> Option E
  | Except.ok _ => none
  | Except.error e => some e

/-- True when the db response for the given call is a success. -/
def callOk {A E : Type} (db : DB A E) : Call A -> Bool
  | Call.createProperty req => exceptOk (db.createProperty req)
  | Call.createEdge req => exceptOk (db.createEdge req)

/-- The db response error for the given call, if any. -/
def callErr {A E : Type} (db : DB A E) : Call A -> Option E
  | Call.createProperty req => errOf (db.createProperty req)
  | Call.createEdge req => errOf (db.createEdge req)

/-- The `@<EdgeType>` entries contributed by the completed edge
records, in edge order. -/
def atEntries {A : Type} (ds : List (EdgeDone A)) : Doc A :=
  ds.map fun d => ("@" ++ d.type, d.data)

/-- Concrete fixture: a driver whose writes always resolve; an edge
response's `Item.Data` is the string `D:` followed by the edge type. -/
def dbW : DB String String :=
  DB.mk (fun _ => Except.ok ())
    (fun req => Except.ok (EdgeResponse.mk (EdgeResponseItem.mk ("D:" ++ req.type))))

/-- Concrete fixture: a driver whose `createEdge` rejects with `boom`
exactly on edge type `Author`. -/
def dbBad : DB String String :=
  DB.mk (fun _ => Except.ok ())
    (fun req =>
      if req.type = "Author" then Except.error "boom"
      else Except.ok (EdgeResponse.mk (EdgeResponseItem.mk ("D:" ++ req.type))))

/-- Concrete fixture document with one property and one edge field. -/
def docW : Doc String :=
  [("id", "x1"), ("Name", "Elantris"), ("Genre", "Fantasy"), ("Author", "cA")]

/-- Concrete fixture document holding only a node id. -/
def docC4 : Doc String := [("id", "x")]

/-- Concrete fixture options whose `key` is `Name`, for the claim that
the key field locates the node id. -/
def optC4 : Options String String :=
  Options.mk (some dbW) none (some "Book") (some "Name") (some 0)
    (some []) (some [])

/-- The document `docW` resolves to when updated through `dbW` with
property list `[Genre]` and edge list `[Author]`. -/
def resW : Doc String :=
  [("id", "x1"), ("Name", "Elantris"), ("Genre", "Fantasy"),
    ("Author", "cA"), ("@Author", "D:Author")]

/- ### Lemmas about the association-list object model -/

theorem dget_append {A : Type} (o1 o2 : Doc A) (k0 : String) :
    dget (o1 ++ o2) k0 = Option.or (dget o1 k0) (dget o2 k0) := by
  induction o1 with
  | nil => simp [dget]
  | cons kv rest ih =>
    obtain ⟨k, v⟩ := kv
    by_cases h : k = k0
    · simp [dget, h, Option.or]
    · simp [dget, h, ih]

theorem dget_eq_none_iff {A : Type} (o : Doc A) (k0 : String) :
    dget o k0 = none <-> k0 ∉ o.map Prod.fst := by
  induction o with
  | nil => simp [dget]
  | cons kv rest ih =>
    obtain ⟨k, v⟩ := kv
    by_cases h : k = k0
    · simp [dget, h]
    · simp [dget, h, ih, Ne.symm h]

theorem dget_rewrite_ne {A : Type} (o : Doc A) (k : String) (v : A)
    (k0 : String) (h : k ≠ k0) :
    dget (o.map fun kv => if kv.1 = k then (k, v) else kv) k0 = dget o k0 := by
  induction o with
  | nil => rfl
  | cons kv rest ih =>
    obtain ⟨k1, v1⟩ := kv
    show dget ((if k1 = k then (k, v) else (k1, v1))
      :: rest.map fun kv => if kv.1 = k then (k, v) else kv) k0
      = dget ((k1, v1) :: rest) k0
    by_cases h1 : k1 = k
    · rw [if_pos h1]
      show (if k = k0 then some v else _) = (if k1 = k0 then some v1 else _)
      rw [if_neg h, if_neg (fun hc => h (h1.symm.trans hc)), ih]
    · rw [if_neg h1]
      show (if k1 = k0 then some v1 else _) = (if k1 = k0 then some v1 else _)
      by_cases h2 : k1 = k0
      · rw [if_pos h2, if_pos h2]
      · rw [if_neg h2, if_neg h2, ih]

theorem dget_rewrite_eq {A : Type} (o : Doc A) (k : String) (v : A)
    (h : (dget o k).isSome = true) :
    dget (o.map fun kv => if kv.1 = k then (k, v) else kv) k = some v := by
  induction o with
  | nil => simp [dget] at h
  | cons kv rest ih =>
    obtain ⟨k1, v1⟩ := kv
    show dget ((if k1 = k then (k, v) else (k1, v1))
      :: rest.map fun kv => if kv.1 = k then (k, v) else kv) k = some v
    by_cases h1 : k1 = k
    · rw [if_pos h1]
      show (if k = k then some v else _) = some v
      rw [if_pos rfl]
    · rw [if_neg h1]
      show (if k1 = k then some v1 else _) = some v
      rw [if_neg h1]
      have h2 : (dget rest k).isSome = true := by
        have h3 : dget ((k1, v1) :: rest) k = dget rest k := by
          show (if k1 = k then some v1 else dget rest k) = dget rest k
          rw [if_neg h1]
        rw [h3] at h
        exact h
      exact ih h2

theorem dget_objSet {A : Type} (o : Doc A) (k : String) (v : A)
    (k0 : String) :
    dget (objSet o k v) k0 = if k = k0 then some v else dget o k0 := by
  unfold objSet
  by_cases hs : (dget o k).isSome = true
  · rw [if_pos hs]
    by_cases h : k = k0
    · subst h
      simp [dget_rewrite_eq o k v hs]
    · simp [h, dget_rewrite_ne o k v k0 h]
  · rw [if_neg hs]
    rw [dget_append]
    by_cases h : k = k0
    · subst h
      have hn : dget o k = none := by
        cases hd : dget o k with
        | none => rfl
        | some a => rw [hd] at hs; simp at hs
      simp [hn, dget, Option.or]
    · simp [h, dget]

theorem dget_objAssign {A : Type} (o src : Doc A) (k0 : String) :
    dget (objAssign o src) k0 =
      Option.or (dget src.reverse k0) (dget o k0) := by
  induction src generalizing o with
  | nil => simp [objAssign, dget, Option.or]
  | cons kv rest ih =>
    obtain ⟨k, v⟩ := kv
    show dget (objAssign (objSet o k v) rest) k0 = _
    rw [ih]
    rw [List.reverse_cons, dget_append, dget_objSet]
    cases hd : dget rest.reverse k0 with
    | some a => simp [Option.or]
    | none =>
      by_cases h : k = k0
      · simp [h, dget, Option.or]
      · simp [h, Ne.symm h, dget, Option.or]

theorem keys_objSet {A : Type} (o : Doc A) (k : String) (v : A) :
    (objSet o k v).map Prod.fst =
      if (dget o k).isSome then o.map Prod.fst
      else o.map Prod.fst ++ [k] := by
  unfold objSet
  by_cases hs : (dget o k).isSome = true
  · rw [if_pos hs, if_pos hs, List.map_map]
    apply List.map_congr_left
    intro kv _
    by_cases h : kv.1 = k
    · simp [h]
    · simp [h]
  · rw [if_neg hs, if_neg hs]
    simp

theorem nodupKeys_objSet {A : Type} (o : Doc A) (k : String) (v : A)
    (h : (o.map Prod.fst).Nodup) : ((objSet o k v).map Prod.fst).Nodup := by
  rw [keys_objSet]
  by_cases hs : (dget o k).isSome = true
  · rw [if_pos hs]; exact h
  · rw [if_neg hs]
    have hn : dget o k = none := by
      cases hd : dget o k with
      | none => rfl
      | some a => rw [hd] at hs; simp at hs
    have hk : k ∉ o.map Prod.fst := (dget_eq_none_iff o k).mp hn
    simp [List.nodup_append, h, hk]

theorem nodupKeys_objAssign {A : Type} (o src : Doc A)
    (h : (o.map Prod.fst).Nodup) :
    ((objAssign o src).map Prod.fst).Nodup := by
  induction src generalizing o with
  | nil => exact h
  | cons kv rest ih =>
    exact ih (objSet o kv.1 kv.2) (nodupKeys_objSet o kv.1 kv.2 h)

theorem dget_reverse_of_nodup {A : Type} (o : Doc A)
    (h : (o.map Prod.fst).Nodup) (k0 : String) :
    dget o.reverse k0 = dget o k0 := by
  induction o with
  | nil => rfl
  | cons kv rest ih =>
    obtain ⟨k, v⟩ := kv
    simp only [List.map_cons, List.nodup_cons] at h
    rw [List.reverse_cons, dget_append, ih h.2]
    by_cases hk : k = k0
    · subst hk
      have hn : dget rest k = none := (dget_eq_none_iff rest k).mpr h.1
      simp [dget, hn, Option.or]
    · simp [dget, hk]

/- ### Lemmas about the components of a run -/

theorem runUpdate_calls {A E : Type} (db : DB A E) (tenant : Option String)
    (m : Nat) (P Es : List String) (doc : Doc A) (node : A)
    (hnode : dget doc "id" = some node) :
    (runUpdate db tenant m P Es doc).calls =
      (propReqsOf tenant m P doc node).map Call.createProperty
      ++ (edgeReqsOf tenant m Es doc node).map Call.createEdge := by
  unfold runUpdate
  rw [hnode]
  dsimp only []
  split <;> rfl

theorem runUpdate_edgesDone {A E : Type} (db : DB A E)
    (tenant : Option String) (m : Nat) (P Es : List String) (doc : Doc A)
    (node : A) (hnode : dget doc "id" = some node) :
    (runUpdate db tenant m P Es doc).edgesDone =
      (runEdges db (edgeReqsOf tenant m Es doc node)).1 := by
  unfold runUpdate
  rw [hnode]
  dsimp only []
  split <;> rfl

theorem runUpdate_throw {A E : Type} (db : DB A E) (tenant : Option String)
    (m : Nat) (P Es : List String) (doc : Doc A)
    (hid : dget doc "id" = none) :
    runUpdate db tenant m P Es doc =
      Run.mk [] [] [] JsTarget.resultObj
        (Except.error "Node is undefined") := by
  unfold runUpdate
  rw [hid]

theorem reduceWrites_snd {A : Type} (ds : List (EdgeDone A)) (acc : Doc A)
    (j : Nat) : (reduceWrites acc j ds).2 = objAssign acc (atEntries ds) := by
  induction ds generalizing acc j with
  | nil => rfl
  | cons d rest ih =>
    show (reduceWrites (objSet acc ("@" ++ d.type) d.data) (j + 1) rest).2
      = objAssign (objSet acc ("@" ++ d.type) d.data) (atEntries rest)
    exact ih _ _

theorem runUpdate_outcome_propErr {A E : Type} (db : DB A E)
    (tenant : Option String) (m : Nat) (P Es : List String) (doc : Doc A)
    (node : A) (e : E) (hnode : dget doc "id" = some node)
    (hp : firstPropError db (propReqsOf tenant m P doc node) = some e) :
    (runUpdate db tenant m P Es doc).outcome =
      Except.ok (Except.error e) := by
  have hp2 : firstPropError db ((propMapOf P doc).map fun pd =>
      PropRequest.mk tenant pd.1 node pd.2 m) = some e := hp
  unfold runUpdate
  rw [hnode]
  dsimp only []
  split
  · next e2 hcase =>
    rw [hp2] at hcase
    cases hcase
    rfl
  · next hcase _ =>
    rw [hp2] at hcase
    cases hcase
  · next hcase _ =>
    rw [hp2] at hcase
    cases hcase

theorem runUpdate_outcome_edgeErr {A E : Type} (db : DB A E)
    (tenant : Option String) (m : Nat) (P Es : List String) (doc : Doc A)
    (node : A) (e : E) (hnode : dget doc "id" = some node)
    (hp : firstPropError db (propReqsOf tenant m P doc node) = none)
    (he : (runEdges db (edgeReqsOf tenant m Es doc node)).2 = some e) :
    (runUpdate db tenant m P Es doc).outcome =
      Except.ok (Except.error e) := by
  have hp2 : firstPropError db ((propMapOf P doc).map fun pd =>
      PropRequest.mk tenant pd.1 node pd.2 m) = none := hp
  have he2 : (runEdges db ((edgeMapOf Es doc).map fun et =>
      EdgeRequest.mk tenant et.1 node et.2 m)).2 = some e := he
  unfold runUpdate
  rw [hnode]
  dsimp only []
  split
  · next e2 hcase =>
    rw [hp2] at hcase
    cases hcase
  · next e2 hcase1 hcase2 =>
    rw [he2] at hcase2
    cases hcase2
    rfl
  · next hcase1 hcase2 =>
    rw [he2] at hcase2
    cases hcase2

theorem runUpdate_outcome_ok {A E : Type} (db : DB A E)
    (tenant : Option String) (m : Nat) (P Es : List String) (doc : Doc A)
    (node : A) (hnode : dget doc "id" = some node)
    (hp : firstPropError db (propReqsOf tenant m P doc node) = none)
    (he : (runEdges db (edgeReqsOf tenant m Es doc node)).2 = none) :
    (runUpdate db tenant m P Es doc).outcome =
      Except.ok (Except.ok (objAssign
        (objAssign (objSet [] "id" node) doc)
        (objAssign [] (atEntries
          (runEdges db (edgeReqsOf tenant m Es doc node)).1)))) := by
  have hp2 : firstPropError db ((propMapOf P doc).map fun pd =>
      PropRequest.mk tenant pd.1 node pd.2 m) = none := hp
  have he2 : (runEdges db ((edgeMapOf Es doc).map fun et =>
      EdgeRequest.mk tenant et.1 node et.2 m)).2 = none := he
  unfold runUpdate
  rw [hnode]
  dsimp only []
  split
  · next e2 hcase =>
    rw [hp2] at hcase
    cases hcase
  · next e2 hcase1 hcase2 =>
    rw [he2] at hcase2
    cases hcase2
  · next hcase1 hcase2 =>
    show Except.ok (Except.ok _) = _
    rw [reduceWrites_snd]
    exact rfl

theorem runUpdate_resolved {A E : Type} (db : DB A E)
    (tenant : Option String) (m : Nat) (P Es : List String) (doc : Doc A)
    (node : A) (r : Doc A) (hnode : dget doc "id" = some node)
    (hres : (runUpdate db tenant m P Es doc).outcome =
      Except.ok (Except.ok r)) :
    firstPropError db (propReqsOf tenant m P doc node) = none
    ∧ (runEdges db (edgeReqsOf tenant m Es doc node)).2 = none
    ∧ r = objAssign (objAssign (objSet [] "id" node) doc)
        (objAssign [] (atEntries
          (runEdges db (edgeReqsOf tenant m Es doc node)).1)) := by
  cases hp : firstPropError db (propReqsOf tenant m P doc node) with
  | some e =>
    rw [runUpdate_outcome_propErr db tenant m P Es doc node e hnode hp]
      at hres
    cases hres
  | none =>
    cases he : (runEdges db (edgeReqsOf tenant m Es doc node)).2 with
    | some e =>
      rw [runUpdate_outcome_edgeErr db tenant m P Es doc node e hnode hp he]
        at hres
      cases hres
    | none =>
      rw [runUpdate_outcome_ok db tenant m P Es doc node hnode hp he]
        at hres
      injection hres with hres2
      injection hres2 with hres3
      exact ⟨rfl, rfl, hres3.symm⟩

theorem firstPropError_eq {A E : Type} (db : DB A E)
    (reqs : List (PropRequest A)) :
    firstPropError db reqs =
      (reqs.filterMap fun r => errOf (db.createProperty r)).head? := by
  induction reqs with
  | nil => rfl
  | cons req rest ih =>
    show firstPropError db (req :: rest) = _
    rw [List.filterMap_cons]
    cases hc : db.createProperty req with
    | error e =>
      show (match db.createProperty req with
        | Except.error e => some e
        | Except.ok _ => firstPropError db rest) = _
      rw [hc]
      simp [errOf]
    | ok u =>
      show (match db.createProperty req with
        | Except.error e => some e
        | Except.ok _ => firstPropError db rest) = _
      rw [hc]
      simp [errOf, ih]

theorem runEdges_snd_eq {A E : Type} (db : DB A E)
    (reqs : List (EdgeRequest A)) :
    (runEdges db reqs).2 =
      (reqs.filterMap fun r => errOf (db.createEdge r)).head? := by
  induction reqs with
  | nil => rfl
  | cons req rest ih =>
    rw [List.filterMap_cons]
    cases hc : db.createEdge req with
    | error e =>
      show (match db.createEdge req with
        | Except.error e => (([] : List (EdgeDone A)), some e)
        | Except.ok response =>
          (EdgeDone.mk req.type req.target response.Item.Data
            :: (runEdges db rest).1, (runEdges db rest).2)).2 = _
      rw [hc]
      simp [errOf]
    | ok response =>
      show (match db.createEdge req with
        | Except.error e => (([] : List (EdgeDone A)), some e)
        | Except.ok response =>
          (EdgeDone.mk req.type req.target response.Item.Data
            :: (runEdges db rest).1, (runEdges db rest).2)).2 = _
      rw [hc]
      simp [errOf, ih]

theorem runEdges_fst_mem {A E : Type} (db : DB A E)
    (reqs : List (EdgeRequest A)) (d : EdgeDone A)
    (hd : d ∈ (runEdges db reqs).1) :
    ∃ req, req ∈ reqs ∧ ∃ resp, db.createEdge req = Except.ok resp
      ∧ d = EdgeDone.mk req.type req.target resp.Item.Data := by
  induction reqs with
  | nil => cases hd
  | cons req rest ih =>
    revert hd
    show d ∈ (match db.createEdge req with
      | Except.error e => (([] : List (EdgeDone A)), some e)
      | Except.ok response =>
        (EdgeDone.mk req.type req.target response.Item.Data
          :: (runEdges db rest).1, (runEdges db rest).2)).1 -> _
    cases hc : db.createEdge req with
    | error e =>
      intro hd
      cases hd
    | ok response =>
      intro hd
      rcases List.mem_cons.mp hd with h1 | h1
      · exact ⟨req, by simp, response, hc, h1⟩
      · rcases ih h1 with ⟨req2, hreq2, resp2, hc2, hd2⟩
        exact ⟨req2, by simp [hreq2], resp2, hc2, hd2⟩

theorem runEdges_fst_of_ok {A E : Type} (db : DB A E)
    (reqs : List (EdgeRequest A)) (hok : (runEdges db reqs).2 = none) :
    ((runEdges db reqs).1.map fun d => (d.type, d.target)) =
      reqs.map fun r => (r.type, r.target) := by
  induction reqs with
  | nil => rfl
  | cons req rest ih =>
    have hstep : runEdges db (req :: rest) = match db.createEdge req with
      | Except.error e => (([] : List (EdgeDone A)), some e)
      | Except.ok response =>
        (EdgeDone.mk req.type req.target response.Item.Data
          :: (runEdges db rest).1, (runEdges db rest).2) := rfl
    rw [hstep] at hok ⊢
    cases hc : db.createEdge req with
    | error e =>
      rw [hc] at hok
      exact Option.noConfusion hok
    | ok response =>
      rw [hc] at hok
      have hok2 : (runEdges db rest).2 = none := hok
      show (EdgeDone.mk req.type req.target response.Item.Data
        :: (runEdges db rest).1).map (fun d => (d.type, d.target))
        = (req :: rest).map fun r => (r.type, r.target)
      rw [List.map_cons, List.map_cons, ih hok2]

theorem firstPropError_none_iff {A E : Type} (db : DB A E)
    (reqs : List (PropRequest A)) :
    firstPropError db reqs = none <->
      ∀ req ∈ reqs, exceptOk (db.createProperty req) = true := by
  induction reqs with
  | nil => simp [firstPropError]
  | cons req rest ih =>
    show (match db.createProperty req with
      | Except.error e => some e
      | Except.ok _ => firstPropError db rest) = none <-> _
    cases hc : db.createProperty req with
    | error e => simp [hc, exceptOk]
    | ok u => simp [hc, exceptOk, ih]

theorem runEdges_none_iff {A E : Type} (db : DB A E)
    (reqs : List (EdgeRequest A)) :
    (runEdges db reqs).2 = none <->
      ∀ req ∈ reqs, exceptOk (db.createEdge req) = true := by
  induction reqs with
  | nil => simp [runEdges]
  | cons req rest ih =>
    show (match db.createEdge req with
      | Except.error e => (([] : List (EdgeDone A)), some e)
      | Except.ok response =>
        (EdgeDone.mk req.type req.target response.Item.Data
          :: (runEdges db rest).1, (runEdges db rest).2)).2 = none <-> _
    cases hc : db.createEdge req with
    | error e => simp [hc, exceptOk]
    | ok response => simp [hc, exceptOk, ih]

theorem filter_isPropOf_edges {A : Type} (p : String)
    (l : List (EdgeRequest A)) :
    (l.map Call.createEdge).filter (isPropOf p) = [] := by
  induction l with
  | nil => rfl
  | cons r rest ih => simp [List.filter_cons, isPropOf, ih]

theorem filter_isEdgeOf_props {A : Type} (e : String)
    (l : List (PropRequest A)) :
    (l.map Call.createProperty).filter (isEdgeOf e) = [] := by
  induction l with
  | nil => rfl
  | cons r rest ih => simp [List.filter_cons, isEdgeOf, ih]

theorem propReqsOf_cons {A : Type} (tenant : Option String) (m : Nat)
    (node : A) (q : String) (P2 : List String) (doc : Doc A) :
    propReqsOf tenant m (q :: P2) doc node =
      if (dget doc q).isSome = true
      then PropRequest.mk tenant q node (dget doc q) m
        :: propReqsOf tenant m P2 doc node
      else propReqsOf tenant m P2 doc node := by
  unfold propReqsOf propMapOf
  rw [List.filter_cons]
  by_cases hq : (dget doc q).isSome = true
  · rw [if_pos hq, if_pos hq]
    rfl
  · rw [if_neg hq, if_neg hq]

theorem edgeReqsOf_cons {A : Type} (tenant : Option String) (m : Nat)
    (node : A) (q : String) (E2 : List String) (doc : Doc A) :
    edgeReqsOf tenant m (q :: E2) doc node =
      if (dget doc q).isSome = true
      then EdgeRequest.mk tenant q node (dget doc q) m
        :: edgeReqsOf tenant m E2 doc node
      else edgeReqsOf tenant m E2 doc node := by
  unfold edgeReqsOf edgeMapOf
  rw [List.filter_cons]
  by_cases hq : (dget doc q).isSome = true
  · rw [if_pos hq, if_pos hq]
    rfl
  · rw [if_neg hq, if_neg hq]

theorem propCalls_char {A : Type} (tenant : Option String) (m : Nat)
    (node : A) (P : List String) (doc : Doc A) (hP : P.Nodup) (p : String) :
    ((propReqsOf tenant m P doc node).map Call.createProperty).filter
        (isPropOf p) =
      if p ∈ P ∧ (dget doc p).isSome = true
      then [Call.createProperty (PropRequest.mk tenant p node (dget doc p) m)]
      else [] := by
  induction P with
  | nil => simp [propReqsOf, propMapOf]
  | cons q P2 ih =>
    rw [List.nodup_cons] at hP
    have ihq := ih hP.2
    rw [propReqsOf_cons]
    by_cases hq : (dget doc q).isSome = true
    · rw [if_pos hq, List.map_cons, List.filter_cons]
      by_cases hqp : q = p
      · subst hqp
        have hbeq : isPropOf q (Call.createProperty
            (PropRequest.mk tenant q node (dget doc q) m)) = true := by
          simp [isPropOf]
        rw [hbeq, if_pos rfl, ihq]
        rw [if_neg (fun hc => hP.1 hc.1)]
        rw [if_pos ⟨List.mem_cons_self q P2, hq⟩]
      · have hbeq : isPropOf p (Call.createProperty
            (PropRequest.mk tenant q node (dget doc q) m)) = false := by
          simp [isPropOf, hqp]
        rw [hbeq, if_neg Bool.false_ne_true, ihq]
        have hiff : (p ∈ q :: P2 ∧ (dget doc p).isSome = true)
            <-> (p ∈ P2 ∧ (dget doc p).isSome = true) := by
          simp [List.mem_cons, Ne.symm hqp]
        rw [if_congr hiff rfl rfl]
    · rw [if_neg hq, ihq]
      by_cases hqp : q = p
      · subst hqp
        rw [if_neg (fun hc => hq hc.2), if_neg (fun hc => hq hc.2)]
      · have hiff : (p ∈ q :: P2 ∧ (dget doc p).isSome = true)
            <-> (p ∈ P2 ∧ (dget doc p).isSome = true) := by
          simp [List.mem_cons, Ne.symm hqp]
        rw [if_congr hiff rfl rfl]

theorem edgeCalls_char {A : Type} (tenant : Option String) (m : Nat)
    (node : A) (Es : List String) (doc : Doc A) (hE : Es.Nodup)
    (e : String) :
    ((edgeReqsOf tenant m Es doc node).map Call.createEdge).filter
        (isEdgeOf e) =
      if e ∈ Es ∧ (dget doc e).isSome = true
      then [Call.createEdge (EdgeRequest.mk tenant e node (dget doc e) m)]
      else [] := by
  induction Es with
  | nil => simp [edgeReqsOf, edgeMapOf]
  | cons q E2 ih =>
    rw [List.nodup_cons] at hE
    have ihq := ih hE.2
    rw [edgeReqsOf_cons]
    by_cases hq : (dget doc q).isSome = true
    · rw [if_pos hq, List.map_cons, List.filter_cons]
      by_cases hqp : q = e
      · subst hqp
        have hbeq : isEdgeOf q (Call.createEdge
            (EdgeRequest.mk tenant q node (dget doc q) m)) = true := by
          simp [isEdgeOf]
        rw [hbeq, if_pos rfl, ihq]
        rw [if_neg (fun hc => hE.1 hc.1)]
        rw [if_pos ⟨List.mem_cons_self q E2, hq⟩]
      · have hbeq : isEdgeOf e (Call.createEdge
            (EdgeRequest.mk tenant q node (dget doc q) m)) = false := by
          simp [isEdgeOf, hqp]
        rw [hbeq, if_neg Bool.false_ne_true, ihq]
        have hiff : (e ∈ q :: E2 ∧ (dget doc e).isSome = true)
            <-> (e ∈ E2 ∧ (dget doc e).isSome = true) := by
          simp [List.mem_cons, Ne.symm hqp]
        rw [if_congr hiff rfl rfl]
    · rw [if_neg hq, ihq]
      by_cases hqp : q = e
      · subst hqp
        rw [if_neg (fun hc => hq hc.2), if_neg (fun hc => hq hc.2)]
      · have hiff : (e ∈ q :: E2 ∧ (dget doc e).isSome = true)
            <-> (e ∈ E2 ∧ (dget doc e).isSome = true) := by
          simp [List.mem_cons, Ne.symm hqp]
        rw [if_congr hiff rfl rfl]

theorem edgeDataWrites_ne_doc {A : Type} (ds : List (EdgeDone A)) :
    ∀ w ∈ edgeDataWrites ds, w.1 ≠ JsTarget.docObj := by
  intro w hw
  rcases List.mem_map.mp hw with ⟨ie, _, hie⟩
  rw [← hie]
  simp

theorem reduceWrites_ne_doc {A : Type} (ds : List (EdgeDone A))
    (acc : Doc A) (j : Nat) :
    ∀ w ∈ (reduceWrites acc j ds).1, w.1 ≠ JsTarget.docObj := by
  induction ds generalizing acc j with
  | nil => intro w hw; cases hw
  | cons d rest ih =>
    intro w hw
    show _ ≠ _
    rcases List.mem_append.mp hw with h1 | h1
    · rcases List.mem_append.mp h1 with h2 | h2
      · rcases List.mem_map.mp h2 with ⟨kv, _, hkv⟩
        rw [← hkv]
        simp
      · rcases List.mem_singleton.mp h2 with rfl
        simp
    · exact ih _ _ w h1

theorem resultWrites_ne_doc {A : Type} (node : A) (doc accF : Doc A) :
    ∀ w ∈ resultWrites node doc accF, w.1 ≠ JsTarget.docObj := by
  intro w hw
  rcases List.mem_cons.mp hw with h1 | h1
  · rw [h1]; simp
  · rcases List.mem_append.mp h1 with h2 | h2
    · rcases List.mem_map.mp h2 with ⟨kv, _, hkv⟩
      rw [← hkv]; simp
    · rcases List.mem_map.mp h2 with ⟨kv, _, hkv⟩
      rw [← hkv]; simp

theorem runUpdate_writes_ne_doc {A E : Type} (db : DB A E)
    (tenant : Option String) (m : Nat) (P Es : List String) (doc : Doc A) :
    ∀ w ∈ (runUpdate db tenant m P Es doc).writes,
      w.1 ≠ JsTarget.docObj := by
  cases hid : dget doc "id" with
  | none =>
    rw [runUpdate_throw db tenant m P Es doc hid]
    intro w hw
    cases hw
  | some node =>
    unfold runUpdate
    rw [hid]
    dsimp only []
    split
    · exact edgeDataWrites_ne_doc _
    · exact edgeDataWrites_ne_doc _
    · intro w hw
      rcases List.mem_append.mp hw with h1 | h1
      · rcases List.mem_append.mp h1 with h2 | h2
        · exact edgeDataWrites_ne_doc _ w h2
        · exact reduceWrites_ne_doc _ _ _ w h2
      · exact resultWrites_ne_doc _ _ _ w h1

theorem runUpdate_resultTarget {A E : Type} (db : DB A E)
    (tenant : Option String) (m : Nat) (P Es : List String) (doc : Doc A) :
    (runUpdate db tenant m P Es doc).resultTarget = JsTarget.resultObj := by
  cases hid : dget doc "id" with
  | none => rw [runUpdate_throw db tenant m P Es doc hid]
  | some node =>
    unfold runUpdate
    rw [hid]
    dsimp only []
    split <;> rfl

theorem create_throws_iff {A E : Type} (options : Options A E) :
    configThrows (create options) = true <->
      (options.db = none ∨ options.type = none ∨ options.key = none
        ∨ options.maxGSIK = none) := by
  obtain ⟨dbo, tn, tyo, ko, mo, Po, Eo⟩ := options
  cases dbo <;> cases tyo <;> cases ko <;> cases mo <;>
    simp [create, configThrows]

theorem create_error_db {A E : Type} (options : Options A E)
    (h : options.db = none) :
    create options = Except.error "DB driver is undefined" := by
  obtain ⟨dbo, tn, tyo, ko, mo, Po, Eo⟩ := options
  cases h
  rfl

theorem create_error_type {A E : Type} (options : Options A E)
    (h1 : options.db ≠ none) (h2 : options.type = none) :
    create options = Except.error "Type is undefined" := by
  obtain ⟨dbo, tn, tyo, ko, mo, Po, Eo⟩ := options
  cases dbo with
  | none => exact absurd rfl h1
  | some db =>
    cases h2
    rfl

theorem create_error_key {A E : Type} (options : Options A E)
    (h1 : options.db ≠ none) (h2 : options.type ≠ none)
    (h3 : options.key = none) :
    create options = Except.error "Key is undefined" := by
  obtain ⟨dbo, tn, tyo, ko, mo, Po, Eo⟩ := options
  cases dbo with
  | none => exact absurd rfl h1
  | some db =>
    cases tyo with
    | none => exact absurd rfl h2
    | some ty =>
      cases h3
      rfl

theorem create_error_maxgsik {A E : Type} (options : Options A E)
    (h1 : options.db ≠ none) (h2 : options.type ≠ none)
    (h3 : options.key ≠ none) (h4 : options.maxGSIK = none) :
    create options = Except.error "Max GSIK is undefined" := by
  obtain ⟨dbo, tn, tyo, ko, mo, Po, Eo⟩ := options
  cases dbo with
  | none => exact absurd rfl h1
  | some db =>
    cases tyo with
    | none => exact absurd rfl h2
    | some ty =>
      cases ko with
      | none => exact absurd rfl h3
      | some k =>
        cases h4
        rfl

theorem applyWrites_of_no_target {A : Type} (ws : List (JsWrite A))
    (t : JsTarget) (o : Doc A) (h : ∀ w ∈ ws, w.1 ≠ t) :
    applyWrites ws t o = o := by
  induction ws with
  | nil => rfl
  | cons w rest ih =>
    show List.foldl _ (if w.1 = t then _ else o) rest = o
    rw [if_neg (h w (by simp))]
    exact ih fun x hx => h x (by simp [hx])

theorem create_ok_some_inv {A E : Type} (db : DB A E)
    (tenant : Option String) (ty keyname : String) (m : Nat)
    (P Es : List String) (f : Doc A -> Run A E)
    (hf : create (Options.mk (some db) tenant (some ty) (some keyname)
      (some m) (some P) (some Es)) = Except.ok f) :
    f = runUpdate db tenant m P Es := by
  have hf2 : (Except.ok (runUpdate db tenant m P Es) :
      Except String (Doc A -> Run A E)) = Except.ok f := hf
  injection hf2 with h
  exact h.symm

theorem create_ok_getD_inv {A E : Type} (db : DB A E)
    (tenant : Option String) (ty keyname : String) (m : Nat)
    (Po Eo : Option (List String)) (f : Doc A -> Run A E)
    (hf : create (Options.mk (some db) tenant (some ty) (some keyname)
      (some m) Po Eo) = Except.ok f) :
    f = runUpdate db tenant m (Po.getD []) (Eo.getD []) := by
  have hf2 : (Except.ok (runUpdate db tenant m (Po.getD []) (Eo.getD [])) :
      Except String (Doc A -> Run A E)) = Except.ok f := hf
  injection hf2 with h
  exact h.symm

theorem throwsSync_false_of_ok {A E : Type} (r : Run A E)
    (x : Except E (Doc A)) (h : r.outcome = Except.ok x) :
    throwsSync r = false := by
  unfold throwsSync
  rw [h]

theorem runUpdate_outcome_isOk {A E : Type} (db : DB A E)
    (tenant : Option String) (m : Nat) (P Es : List String) (doc : Doc A)
    (node : A) (hnode : dget doc "id" = some node) :
    ∃ x, (runUpdate db tenant m P Es doc).outcome = Except.ok x := by
  cases hp : firstPropError db (propReqsOf tenant m P doc node) with
  | some e =>
    exact ⟨_, runUpdate_outcome_propErr db tenant m P Es doc node e hnode hp⟩
  | none =>
    cases he : (runEdges db (edgeReqsOf tenant m Es doc node)).2 with
    | some e =>
      exact ⟨_,
        runUpdate_outcome_edgeErr db tenant m P Es doc node e hnode hp he⟩
    | none =>
      exact ⟨_, runUpdate_outcome_ok db tenant m P Es doc node hnode hp he⟩

/- ### The claims -/

/-- C1: with recognized property names `P` (duplicate-free) and a
document bound to `node`, the update issues exactly one
`createProperty` call for each `p` in `P` present (non-undefined) in
the document — carrying the configured tenant and maxGSIK, the node,
`p` as type and `doc[p]` as data — and no `createProperty` call for
any name absent from the document or not listed in `P`. -/
theorem c1_property_writes {A E : Type} (db : DB A E)
    (tenant : Option String) (ty keyname : String) (m : Nat)
    (P Es : List String) (f : Doc A -> Run A E)
    (hf : create (Options.mk (some db) tenant (some ty) (some keyname)
      (some m) (some P) (some Es)) = Except.ok f)
    (hP : P.Nodup) (doc : Doc A) (node : A)
    (hnode : dget doc "id" = some node) (p : String) :
    propCallsFor (f doc) p =
      if p ∈ P ∧ (dget doc p).isSome = true
      then [Call.createProperty (PropRequest.mk tenant p node (dget doc p) m)]
      else [] := by
  have hfeq := create_ok_some_inv db tenant ty keyname m P Es f hf
  subst hfeq
  unfold propCallsFor
  rw [runUpdate_calls db tenant m P Es doc node hnode]
  rw [List.filter_append]
  rw [propCalls_char tenant m node P doc hP p]
  rw [filter_isPropOf_edges p (edgeReqsOf tenant m Es doc node)]
  rw [List.append_nil]

/-- C1 witness: concrete evaluation of the property-call
characterization on `docW`. -/
theorem c1_witness :
    propCallsFor (runUpdate dbW (some "tn") 4 ["Genre"] ["Author"] docW)
        "Genre"
      = [Call.createProperty
          (PropRequest.mk (some "tn") "Genre" "x1" (some "Fantasy") 4)] := by
  have h := c1_property_writes dbW (some "tn") "Book" "Name" 4
    ["Genre"] ["Author"] (runUpdate dbW (some "tn") 4 ["Genre"] ["Author"])
    rfl (by decide) docW "x1" rfl "Genre"
  exact h.trans (by decide)

/-- C2: with recognized edge names `Es` (duplicate-free), the update
issues exactly one `createEdge` call per name present in the document,
carrying tenant, maxGSIK, node, the name as type and `doc[e]` as
target; and every completed edge record's `data` is exactly the
`Item.Data` of the response its own `createEdge` call resolved to. -/
theorem c2_edge_writes {A E : Type} (db : DB A E)
    (tenant : Option String) (ty keyname : String) (m : Nat)
    (P Es : List String) (f : Doc A -> Run A E)
    (hf : create (Options.mk (some db) tenant (some ty) (some keyname)
      (some m) (some P) (some Es)) = Except.ok f)
    (hE : Es.Nodup) (doc : Doc A) (node : A)
    (hnode : dget doc "id" = some node) (e : String) :
    (edgeCallsFor (f doc) e =
      if e ∈ Es ∧ (dget doc e).isSome = true
      then [Call.createEdge (EdgeRequest.mk tenant e node (dget doc e) m)]
      else [])
    ∧ ∀ d ∈ (f doc).edgesDone,
        ∃ resp, db.createEdge (EdgeRequest.mk tenant d.type node d.target m)
          = Except.ok resp ∧ d.data = resp.Item.Data := by
  have hfeq := create_ok_some_inv db tenant ty keyname m P Es f hf
  subst hfeq
  constructor
  · unfold edgeCallsFor
    rw [runUpdate_calls db tenant m P Es doc node hnode]
    rw [List.filter_append]
    rw [filter_isEdgeOf_props e (propReqsOf tenant m P doc node)]
    rw [edgeCalls_char tenant m node Es doc hE e]
    rw [List.nil_append]
  · intro d hd
    rw [runUpdate_edgesDone db tenant m P Es doc node hnode] at hd
    rcases runEdges_fst_mem db _ d hd with ⟨req, hreq, resp, hcreate, hdval⟩
    rcases List.mem_map.mp hreq with ⟨et, _, het⟩
    have h1 : EdgeRequest.mk tenant req.type node req.target m = req := by
      rw [← het]
    subst hdval
    refine ⟨resp, ?_, rfl⟩
    show db.createEdge (EdgeRequest.mk tenant req.type node req.target m)
      = Except.ok resp
    rw [h1]
    exact hcreate

/-- C2 witness: concrete evaluation of the edge-call characterization
on `docW`. -/
theorem c2_witness :
    edgeCallsFor (runUpdate dbW (some "tn") 4 ["Genre"] ["Author"] docW)
        "Author"
      = [Call.createEdge
          (EdgeRequest.mk (some "tn") "Author" "x1" (some "cA") 4)] := by
  have h := c2_edge_writes dbW (some "tn") "Book" "Name" 4
    ["Genre"] ["Author"] (runUpdate dbW (some "tn") 4 ["Genre"] ["Author"])
    rfl (by decide) docW "x1" rfl "Author"
  exact h.1.trans (by decide)

/-- C3: when the update resolves with result `r`, every key reads as
the merge of (from lowest to highest precedence) the base
`(id, node)` binding, the document's own bindings, and the `@Edge`
entries built from the completed edge records' captured data. -/
theorem c3_result_merge {A E : Type} (db : DB A E)
    (tenant : Option String) (ty keyname : String) (m : Nat)
    (P Es : List String) (f : Doc A -> Run A E)
    (hf : create (Options.mk (some db) tenant (some ty) (some keyname)
      (some m) (some P) (some Es)) = Except.ok f)
    (doc : Doc A) (node : A) (r : Doc A)
    (hnode : dget doc "id" = some node)
    (hdoc : (doc.map Prod.fst).Nodup)
    (hres : (f doc).outcome = Except.ok (Except.ok r)) (k0 : String) :
    dget r k0 =
      Option.or (dget (atEntries (f doc).edgesDone).reverse k0)
        (Option.or (dget doc k0)
          (if "id" = k0 then some node else none)) := by
  have hfeq := create_ok_some_inv db tenant ty keyname m P Es f hf
  subst hfeq
  rcases runUpdate_resolved db tenant m P Es doc node r hnode hres
    with ⟨hp, he, hr⟩
  rw [runUpdate_edgesDone db tenant m P Es doc node hnode]
  rw [hr, dget_objAssign]
  have h1 : dget (objAssign []
      (atEntries (runEdges db (edgeReqsOf tenant m Es doc node)).1)).reverse
        k0
      = dget (atEntries
          (runEdges db (edgeReqsOf tenant m Es doc node)).1).reverse k0 := by
    rw [dget_reverse_of_nodup _ (nodupKeys_objAssign [] _ (by simp)) k0]
    rw [dget_objAssign]
    show Option.or _ (dget [] k0) = _
    rw [show dget ([] : Doc A) k0 = none from rfl, Option.or_none]
  have h2 : dget (objAssign (objSet [] "id" node) doc) k0
      = Option.or (dget doc k0)
          (if "id" = k0 then some node else none) := by
    rw [dget_objAssign, dget_reverse_of_nodup doc hdoc k0, dget_objSet]
    exact rfl
  rw [h1, h2]

/-- C3 witness: the `@Author` entry of the concrete resolved result
holds the captured edge data. -/
theorem c3_witness : dget resW "@Author" = some "D:Author" := by
  have h := c3_result_merge dbW (some "tn") "Book" "Name" 4
    ["Genre"] ["Author"] (runUpdate dbW (some "tn") 4 ["Genre"] ["Author"])
    rfl docW "x1" resW rfl (by decide) rfl "@Author"
  exact h.trans (by decide)

/-- C4 counterexample: with `key` configured as `Name`, a document
lacking the `Name` field but holding an `id` does not fail — the code
reads `doc.id` and never consults the configured key name, so the
claim "fails with NodeUndefined exactly when the key field is absent"
is false at this input. -/
theorem c4_counterexample :
    dget docC4 "Name" = none
    ∧ (applyCreate optC4 docC4).map throwsSync = some false := by
  exact ⟨rfl, rfl⟩

/-- C4 amended: the update fails with `Node is undefined` exactly when
the document's literal `id` field is undefined — the configured key
name is validated for presence at configuration time but not used to
locate the node id — and when `id` is present its value is the node
bound to every issued call. -/
theorem c4_node_from_id {A E : Type} (db : DB A E)
    (tenant : Option String) (ty keyname : String) (m : Nat)
    (P Es : List String) (f : Doc A -> Run A E)
    (hf : create (Options.mk (some db) tenant (some ty) (some keyname)
      (some m) (some P) (some Es)) = Except.ok f) (doc : Doc A) :
    (throwsSync (f doc) = true <-> dget doc "id" = none)
    ∧ (dget doc "id" = none ->
        (f doc).outcome = Except.error "Node is undefined")
    ∧ ∀ node, dget doc "id" = some node ->
        ∀ c ∈ (f doc).calls, callNode c = node := by
  have hfeq := create_ok_some_inv db tenant ty keyname m P Es f hf
  subst hfeq
  refine ⟨?_, ?_, ?_⟩
  · cases hid : dget doc "id" with
    | none =>
      rw [runUpdate_throw db tenant m P Es doc hid]
      simp [throwsSync]
    | some node =>
      rcases runUpdate_outcome_isOk db tenant m P Es doc node hid
        with ⟨x, hx⟩
      have hfalse := throwsSync_false_of_ok
        (runUpdate db tenant m P Es doc) x hx
      constructor
      · intro ht
        rw [hfalse] at ht
        cases ht
      · intro hn
        cases hn
  · intro hn
    rw [runUpdate_throw db tenant m P Es doc hn]
  · intro node hn c hc
    rw [runUpdate_calls db tenant m P Es doc node hn] at hc
    rcases List.mem_append.mp hc with h1 | h1
    · rcases List.mem_map.mp h1 with ⟨req, hreq, hceq⟩
      rcases List.mem_map.mp hreq with ⟨pd, _, hpd⟩
      rw [← hceq, ← hpd]
      rfl
    · rcases List.mem_map.mp h1 with ⟨req, hreq, hceq⟩
      rcases List.mem_map.mp hreq with ⟨et, _, het⟩
      rw [← hceq, ← het]
      rfl

/-- C4 witness: a document without `id` makes the configured update
function throw synchronously. -/
theorem c4_witness :
    throwsSync (runUpdate dbW none 0 ([] : List String) []
      [("Name", "n")]) = true := by
  have h := c4_node_from_id dbW none "Book" "Name" 0 [] []
    (runUpdate dbW none 0 [] []) rfl [("Name", "n")]
  exact h.1.mpr rfl

/-- C5: configuration fails exactly when `db`, `type`, `key` or
`maxGSIK` is undefined; the thrown message names the first missing
input in validation order, and when all four are present configuration
returns an update function. -/
theorem c5_config_validation {A E : Type} (options : Options A E) :
    (configThrows (create options) = true <->
      (options.db = none ∨ options.type = none ∨ options.key = none
        ∨ options.maxGSIK = none))
    ∧ (options.db = none ->
        create options = Except.error "DB driver is undefined")
    ∧ (options.db ≠ none -> options.type = none ->
        create options = Except.error "Type is undefined")
    ∧ (options.db ≠ none -> options.type ≠ none -> options.key = none ->
        create options = Except.error "Key is undefined")
    ∧ (options.db ≠ none -> options.type ≠ none -> options.key ≠ none ->
        options.maxGSIK = none ->
        create options = Except.error "Max GSIK is undefined")
    ∧ (options.db ≠ none -> options.type ≠ none -> options.key ≠ none ->
        options.maxGSIK ≠ none -> ∃ f, create options = Except.ok f) := by
  refine ⟨create_throws_iff options, create_error_db options,
    create_error_type options, create_error_key options,
    create_error_maxgsik options, ?_⟩
  intro h1 h2 h3 h4
  obtain ⟨dbo, tn, tyo, ko, mo, Po, Eo⟩ := options
  cases dbo with
  | none => exact absurd rfl h1
  | some db =>
    cases tyo with
    | none => exact absurd rfl h2
    | some ty =>
      cases ko with
      | none => exact absurd rfl h3
      | some k =>
        cases mo with
        | none => exact absurd rfl h4
        | some m => exact ⟨_, rfl⟩

/-- C5 witness: an empty options object throws the DB-driver
message. -/
theorem c5_witness :
    create (Options.mk none none none none none none none :
        Options String String)
      = Except.error "DB driver is undefined" := by
  have h := c5_config_validation
    (Options.mk none none none none none none none :
      Options String String)
  exact h.2.1 rfl

/-- C6: every validation failure is synchronous and happens before any
store call — a missing required option makes configuration itself
throw (so no update function exists to issue calls), and a document
without `id` makes the update function throw with an empty call list
and an empty write trace. -/
theorem c6_validation_before_store {A E : Type} :
    (∀ options : Options A E,
      (options.db = none ∨ options.type = none ∨ options.key = none
        ∨ options.maxGSIK = none) ->
        configThrows (create options) = true)
    ∧ ∀ (db : DB A E) (tenant : Option String) (ty keyname : String)
        (m : Nat) (Po Eo : Option (List String)) (f : Doc A -> Run A E),
        create (Options.mk (some db) tenant (some ty) (some keyname)
          (some m) Po Eo) = Except.ok f ->
        ∀ doc : Doc A, dget doc "id" = none ->
          (f doc).outcome = Except.error "Node is undefined"
          ∧ (f doc).calls = [] ∧ (f doc).writes = [] := by
  constructor
  · intro options h
    exact (create_throws_iff options).mpr h
  · intro db tenant ty keyname m Po Eo f hf doc hid
    have hfeq := create_ok_getD_inv db tenant ty keyname m Po Eo f hf
    subst hfeq
    rw [runUpdate_throw db tenant m (Po.getD []) (Eo.getD []) doc hid]
    exact ⟨rfl, rfl, rfl⟩

/-- C6 witness: on a document without `id`, the configured update
function issues no calls. -/
theorem c6_witness :
    (runUpdate dbW none 0 ([] : List String) [] [("Name", "n")]).calls
      = [] := by
  have h := (c6_validation_before_store (A := String) (E := String)).2
    dbW none "Book" "Name" 0 (some []) (some [])
    (runUpdate dbW none 0 [] []) rfl [("Name", "n")] rfl
  exact h.2.1

/-- C7: when exactly one of the issued calls rejects (its db response
is an error and every other call's response is a success), the promise
returned by the update rejects with exactly that error, untransformed. -/
theorem c7_rejection_propagates {A E : Type} (db : DB A E)
    (tenant : Option String) (ty keyname : String) (m : Nat)
    (P Es : List String) (f : Doc A -> Run A E)
    (hf : create (Options.mk (some db) tenant (some ty) (some keyname)
      (some m) (some P) (some Es)) = Except.ok f)
    (doc : Doc A) (node : A) (hnode : dget doc "id" = some node) (e0 : E)
    (herr : (f doc).calls.filterMap (callErr db) = [e0]) :
    (f doc).outcome = Except.ok (Except.error e0) := by
  have hfeq := create_ok_some_inv db tenant ty keyname m P Es f hf
  subst hfeq
  rw [runUpdate_calls db tenant m P Es doc node hnode] at herr
  rw [List.filterMap_append] at herr
  have hprop : ((propReqsOf tenant m P doc node).map
      Call.createProperty).filterMap (callErr db)
      = (propReqsOf tenant m P doc node).filterMap
          (fun req => errOf (db.createProperty req)) := by
    rw [List.filterMap_map]
    rfl
  have hedge : ((edgeReqsOf tenant m Es doc node).map
      Call.createEdge).filterMap (callErr db)
      = (edgeReqsOf tenant m Es doc node).filterMap
          (fun req => errOf (db.createEdge req)) := by
    rw [List.filterMap_map]
    rfl
  rw [hprop, hedge] at herr
  cases hA : (propReqsOf tenant m P doc node).filterMap
      (fun req => errOf (db.createProperty req)) with
  | nil =>
    rw [hA, List.nil_append] at herr
    have hp : firstPropError db (propReqsOf tenant m P doc node) = none := by
      rw [firstPropError_eq, hA]
      rfl
    have he : (runEdges db (edgeReqsOf tenant m Es doc node)).2
        = some e0 := by
      rw [runEdges_snd_eq, herr]
      rfl
    exact runUpdate_outcome_edgeErr db tenant m P Es doc node e0 hnode hp he
  | cons a t =>
    rw [hA, List.cons_append] at herr
    injection herr with h1 h2
    subst h1
    have hp : firstPropError db (propReqsOf tenant m P doc node)
        = some a := by
      rw [firstPropError_eq, hA]
      rfl
    exact runUpdate_outcome_propErr db tenant m P Es doc node a hnode hp

/-- C7 witness: through the driver whose `Author` edge write rejects
with `boom`, the update's promise rejects with `boom`. -/
theorem c7_witness :
    (runUpdate dbBad (some "tn") 4 ["Genre"] ["Author"] docW).outcome
      = Except.ok (Except.error "boom") := by
  have h := c7_rejection_propagates dbBad (some "tn") "Book" "Name" 4
    ["Genre"] ["Author"]
    (runUpdate dbBad (some "tn") 4 ["Genre"] ["Author"]) rfl
    docW "x1" rfl "boom" (by decide)
  exact h

/-- C8: the set of issued calls is fixed before any response is
consulted — two configurations differing only in the driver issue the
same calls on every document — and the promise resolves only when
every issued call's own response was a success. -/
theorem c8_concurrent_issue {A E : Type} (db1 db2 : DB A E)
    (tenant : Option String) (ty keyname : String) (m : Nat)
    (P Es : List String) (f1 f2 : Doc A -> Run A E)
    (hf1 : create (Options.mk (some db1) tenant (some ty) (some keyname)
      (some m) (some P) (some Es)) = Except.ok f1)
    (hf2 : create (Options.mk (some db2) tenant (some ty) (some keyname)
      (some m) (some P) (some Es)) = Except.ok f2)
    (doc : Doc A) :
    ((f1 doc).calls = (f2 doc).calls)
    ∧ ∀ r, (f1 doc).outcome = Except.ok (Except.ok r) ->
        ∀ c ∈ (f1 doc).calls, callOk db1 c = true := by
  have hfeq1 := create_ok_some_inv db1 tenant ty keyname m P Es f1 hf1
  have hfeq2 := create_ok_some_inv db2 tenant ty keyname m P Es f2 hf2
  subst hfeq1
  subst hfeq2
  constructor
  · cases hid : dget doc "id" with
    | none =>
      rw [runUpdate_throw db1 tenant m P Es doc hid,
        runUpdate_throw db2 tenant m P Es doc hid]
    | some node =>
      rw [runUpdate_calls db1 tenant m P Es doc node hid,
        runUpdate_calls db2 tenant m P Es doc node hid]
  · intro r hres c hc
    cases hid : dget doc "id" with
    | none =>
      rw [runUpdate_throw db1 tenant m P Es doc hid] at hres
      cases hres
    | some node =>
      rcases runUpdate_resolved db1 tenant m P Es doc node r hid hres
        with ⟨hp, he, _⟩
      rw [runUpdate_calls db1 tenant m P Es doc node hid] at hc
      rcases List.mem_append.mp hc with h1 | h1
      · rcases List.mem_map.mp h1 with ⟨req, hreq, hceq⟩
        rw [← hceq]
        show exceptOk (db1.createProperty req) = true
        exact (firstPropError_none_iff db1 _).mp hp req hreq
      · rcases List.mem_map.mp h1 with ⟨req, hreq, hceq⟩
        rw [← hceq]
        show exceptOk (db1.createEdge req) = true
        exact (runEdges_none_iff db1 _).mp he req hreq

/-- C8 witness: the calls issued through the always-resolving driver
and through the rejecting driver coincide on `docW`. -/
theorem c8_witness :
    (runUpdate dbW (some "tn") 4 ["Genre"] ["Author"] docW).calls
      = (runUpdate dbBad (some "tn") 4 ["Genre"] ["Author"] docW).calls := by
  have h := c8_concurrent_issue dbW dbBad (some "tn") "Book" "Name" 4
    ["Genre"] ["Author"]
    (runUpdate dbW (some "tn") 4 ["Genre"] ["Author"])
    (runUpdate dbBad (some "tn") 4 ["Genre"] ["Author"]) rfl rfl docW
  exact h.1

/-- C9: no field assignment performed by the update targets the input
document object — replaying the write trace onto it leaves it
unchanged — and the resolved result is built in the freshly allocated
result literal, not in the input document. -/
theorem c9_no_input_mutation {A E : Type} (db : DB A E)
    (tenant : Option String) (ty keyname : String) (m : Nat)
    (Po Eo : Option (List String)) (f : Doc A -> Run A E)
    (hf : create (Options.mk (some db) tenant (some ty) (some keyname)
      (some m) Po Eo) = Except.ok f) (doc : Doc A) :
    (∀ w ∈ (f doc).writes, w.1 ≠ JsTarget.docObj)
    ∧ applyWrites (f doc).writes JsTarget.docObj doc = doc
    ∧ (f doc).resultTarget = JsTarget.resultObj := by
  have hfeq := create_ok_getD_inv db tenant ty keyname m Po Eo f hf
  subst hfeq
  refine ⟨runUpdate_writes_ne_doc db tenant m _ _ doc, ?_,
    runUpdate_resultTarget db tenant m _ _ doc⟩
  exact applyWrites_of_no_target _ _ _
    (runUpdate_writes_ne_doc db tenant m _ _ doc)

/-- C9 witness: replaying the concrete write trace of an update of
`docW` onto the document leaves it unchanged. -/
theorem c9_witness :
    applyWrites (runUpdate dbW (some "tn") 4 ["Genre"] ["Author"]
        docW).writes JsTarget.docObj docW = docW := by
  have h := c9_no_input_mutation dbW (some "tn") "Book" "Name" 4
    (some ["Genre"]) (some ["Author"])
    (runUpdate dbW (some "tn") 4 ["Genre"] ["Author"]) rfl docW
  exact h.2.1

/-- C10: when `properties` and `edges` are omitted (defaulting to
empty lists), the configured update issues no store calls on any
document with an id and resolves to the document merged over the base
`(id, node)` binding. -/
theorem c10_omitted_lists {A E : Type} (db : DB A E)
    (tenant : Option String) (ty keyname : String) (m : Nat)
    (f : Doc A -> Run A E)
    (hf : create (Options.mk (some db) tenant (some ty) (some keyname)
      (some m) none none) = Except.ok f)
    (doc : Doc A) (node : A) (hnode : dget doc "id" = some node)
    (hdoc : (doc.map Prod.fst).Nodup) :
    (f doc).calls = []
    ∧ (f doc).outcome =
        Except.ok (Except.ok (objAssign (objSet [] "id" node) doc))
    ∧ ∀ k0, dget (objAssign (objSet [] "id" node) doc) k0
        = Option.or (dget doc k0)
            (if "id" = k0 then some node else none) := by
  have hfeq := create_ok_getD_inv db tenant ty keyname m none none f hf
  subst hfeq
  refine ⟨?_, ?_, ?_⟩
  · rw [runUpdate_calls db tenant m (Option.getD none [])
      (Option.getD none []) doc node hnode]
    rfl
  · have hp : firstPropError db
        (propReqsOf tenant m (Option.getD none []) doc node) = none := rfl
    have he : (runEdges db
        (edgeReqsOf tenant m (Option.getD none []) doc node)).2 = none := rfl
    rw [runUpdate_outcome_ok db tenant m (Option.getD none [])
      (Option.getD none []) doc node hnode hp he]
    exact rfl
  · intro k0
    rw [dget_objAssign, dget_reverse_of_nodup doc hdoc k0, dget_objSet]
    exact rfl

/-- C10 witness: with both lists omitted, the update of `docW` issues
no calls and keeps the document's own `Genre` binding untouched. -/
theorem c10_witness :
    (runUpdate dbW (some "tn") 4 ([] : List String) [] docW).calls = []
    ∧ dget (objAssign (objSet [] "id" "x1") docW) "Genre"
        = some "Fantasy" := by
  have h := c10_omitted_lists dbW (some "tn") "Book" "Name" 4
    (runUpdate dbW (some "tn") 4 [] []) rfl docW "x1" rfl (by decide)
  exact ⟨h.1, (h.2.2 "Genre").trans (by decide)⟩

end DynamoGraph
